import Mathlib

set_option maxHeartbeats 1000000

/-! Shallow embedding of src/main.c: the program forks a linear chain of
processes in which each parent blocks on its child and the leaf blocks on a
signal, with a page-bounded best-effort logger, a SIGINT handler that records
the signal, and an exit hook that re-raises a recorded fatal signal. -/

/-- Default chain length (main.c line 32). -/
def N_CHILDREN : Nat := 3

/-- Compile-time guard (main.c lines 35-37): an N_CHILDREN above 128 is refused. -/
def nChildrenValid (n : Nat) : Prop := n ≤ 128

/-- Role a process ends up in: every non-leaf process waits on its child, the
leaf awaits a signal. -/
inductive Role
  | waiter
  | terminus
deriving DecidableEq, Repr

/-- Chain Builder (main.c lines 82-115): a process whose fork_id value is v
forks a child when v exceeds 1 (the child decrements its own copy of fork_id
and re-enters the loop) and itself leaves the loop as a waiter; when v does not
exceed 1 the while loop is skipped and the process becomes the signal terminus.
The list collects (fork_id, role) for every process of the chain, in creation
order. -/
def chainProcs : Nat → List (Nat × Role)
  | 0 => [(0, Role.terminus)]
  | 1 => [(1, Role.terminus)]
  | v + 2 => (v + 2, Role.waiter) :: chainProcs (v + 1)

/-- The list n, n-1, ..., 1. -/
def countdown : Nat → List Nat
  | 0 => []
  | n + 1 => (n + 1) :: countdown n

theorem countdown_length (n : Nat) : (countdown n).length = n := by
  induction n with
  | zero => rfl
  | succ m ih => simp [countdown, ih]

theorem mem_countdown {m n : Nat} : m ∈ countdown n ↔ 1 ≤ m ∧ m ≤ n := by
  induction n with
  | zero => simp [countdown]; omega
  | succ k ih => simp [countdown, ih]; omega

theorem countdown_pairwise_gt (n : Nat) : (countdown n).Pairwise (· > ·) := by
  induction n with
  | zero => exact List.Pairwise.nil
  | succ k ih =>
    refine List.Pairwise.cons ?_ ih
    intro m hm
    have := mem_countdown.mp hm
    omega

theorem chainProcs_map_fst {n : Nat} (h : 1 ≤ n) :
    (chainProcs n).map Prod.fst = countdown n := by
  induction n, h using Nat.le_induction with
  | base => rfl
  | succ m hm ih =>
    obtain ⟨k, rfl⟩ : ∃ k, m = k + 1 := ⟨m - 1, by omega⟩
    simpa [chainProcs, countdown] using ih

theorem chainProcs_length {n : Nat} (h : 1 ≤ n) : (chainProcs n).length = n := by
  have := congrArg List.length (chainProcs_map_fst h)
  simpa [countdown_length] using this

theorem chainProcs_head (n : Nat) : ∃ r, (chainProcs n).head? = some (n, r) := by
  match n with
  | 0 => exact ⟨Role.terminus, rfl⟩
  | 1 => exact ⟨Role.terminus, rfl⟩
  | v + 2 => exact ⟨Role.waiter, rfl⟩

theorem chainProcs_chain_dec (n : Nat) :
    List.Chain' (fun a b => b.1 = a.1 - 1) (chainProcs n) := by
  induction n with
  | zero => exact List.chain'_singleton _
  | succ m ih =>
    match m with
    | 0 => exact List.chain'_singleton _
    | k + 1 =>
      rw [show k + 1 + 1 = k + 2 by rfl, chainProcs]
      refine List.chain'_cons'.mpr ⟨?_, ih⟩
      intro y hy
      obtain ⟨r, hr⟩ := chainProcs_head (k + 1)
      rw [hr] at hy
      cases hy
      rfl

theorem chainProcs_getLast {n : Nat} (h : 1 ≤ n) :
    (chainProcs n).getLast? = some (1, Role.terminus) := by
  induction n, h using Nat.le_induction with
  | base => rfl
  | succ m hm ih =>
    obtain ⟨k, rfl⟩ : ∃ k, m = k + 1 := ⟨m - 1, by omega⟩
    obtain ⟨r, hr⟩ := chainProcs_head (k + 1)
    rw [show k + 1 + 1 = k + 2 by rfl, chainProcs]
    cases hc : chainProcs (k + 1) with
    | nil => rw [hc] at hr; cases hr
    | cons b l =>
      rw [hc] at ih
      rw [List.getLast?_cons_cons, ih]

theorem chainProcs_waiter_count {n : Nat} (h : 1 ≤ n) :
    ((chainProcs n).filter (fun p => p.2 == Role.waiter)).length = n - 1 := by
  induction n, h using Nat.le_induction with
  | base => rfl
  | succ m hm ih =>
    obtain ⟨k, rfl⟩ : ∃ k, m = k + 1 := ⟨m - 1, by omega⟩
    rw [show k + 1 + 1 = k + 2 by rfl, chainProcs]
    simp only [List.filter_cons]
    norm_num
    omega

/-- C1: for every configured chain length n with 1 ≤ n ≤ 128, exactly n
processes arise in total (the root plus, one per waiter, n-1 forked
descendants), the reported chain positions are n, n-1, ..., 1 — strictly
decreasing, distinct, each child's position exactly one below its parent's —
and for n = 1 no fork occurs: the sole process is directly the signal
terminus. -/
theorem C1_chain_structure (n : Nat) (h1 : 1 ≤ n) (h128 : nChildrenValid n) :
    (chainProcs n).length = n ∧
    (chainProcs n).map Prod.fst = countdown n ∧
    List.Chain' (fun a b => b.1 = a.1 - 1) (chainProcs n) ∧
    ((chainProcs n).map Prod.fst).Pairwise (· > ·) ∧
    ((chainProcs n).map Prod.fst).Nodup ∧
    ((chainProcs n).filter (fun p => p.2 == Role.waiter)).length = n - 1 ∧
    (chainProcs n).getLast? = some (1, Role.terminus) ∧
    (n = 1 → chainProcs n = [(1, Role.terminus)]) := by
  refine ⟨chainProcs_length h1, chainProcs_map_fst h1, chainProcs_chain_dec n, ?_, ?_, chainProcs_waiter_count h1, chainProcs_getLast h1, ?_⟩
  · rw [chainProcs_map_fst h1]
    exact countdown_pairwise_gt n
  · rw [chainProcs_map_fst h1]
    exact (countdown_pairwise_gt n).imp (fun h => Nat.ne_of_gt h)
  · rintro rfl
    rfl

/-- Witness for C1 at the default chain length N_CHILDREN = 3. -/
theorem C1_chain_structure_witness :
    (chainProcs 3).length = 3 ∧
    (chainProcs 3).map Prod.fst = countdown 3 ∧
    List.Chain' (fun a b => b.1 = a.1 - 1) (chainProcs 3) ∧
    ((chainProcs 3).map Prod.fst).Pairwise (· > ·) ∧
    ((chainProcs 3).map Prod.fst).Nodup ∧
    ((chainProcs 3).filter (fun p => p.2 == Role.waiter)).length = 3 - 1 ∧
    (chainProcs 3).getLast? = some (1, Role.terminus) ∧
    (3 = 1 → chainProcs 3 = [(1, Role.terminus)]) :=
  C1_chain_structure 3 (by decide) (by simp [nChildrenValid])

/-- Exit status values from stdlib. -/
def EXIT_SUCCESS : Nat := 0

def EXIT_FAILURE : Nat := 1

/-- Result of one waitpid(2) attempt on the child (main.c line 102): a
non-negative return (the child changed state), or a negative return with errno
EINTR (interrupted by signal delivery), or a negative return with any other
errno. -/
inductive WaitAttempt
  | success
  | eintr
  | failOther
deriving DecidableEq, Repr

/-- Outcome of the wait loop: the parent exits successfully, or reports a
diagnostic and fails, or is still blocked in waitpid (the child never changed
state within the modelled attempts). -/
inductive WaitOutcome
  | exitedSuccess
  | failed (diag : String)
  | stillBlocked
deriving DecidableEq, Repr

/-- Wait Supervisor loop (main.c lines 100-109): retry waitpid while it returns
negative with errno EINTR; any other negative return is reported via
perror("main: wait_pid") and is fatal; a non-negative return falls through to
exit(EXIT_SUCCESS). The list holds the successive waitpid results. -/
def waitLoop : List WaitAttempt → WaitOutcome
  | [] => WaitOutcome.stillBlocked
  | WaitAttempt.success :: _ => WaitOutcome.exitedSuccess
  | WaitAttempt.eintr :: rest => waitLoop rest
  | WaitAttempt.failOther :: _ => WaitOutcome.failed "main: wait_pid"

/-- Observable per-process events of main's chain loop. -/
inductive ProcEvent
  | logE (m : String)
  | perrorE (m : String)
  | forkChild
  | pauseCall
deriving DecidableEq, Repr

/-- How a single process of the chain ends up. -/
inductive ProcExit
  | exited (code : Nat)
  | blocked
deriving DecidableEq, Repr

/-- One process's run of main.c lines 82-115, entered with fork_id value v:
with v above 1 it forks (fork failure is reported via perror("main: fork") and
fatal), then as the parent logs "waiting" and drives the wait loop on its
child; with v at 1 it logs "last child awaiting signal" and calls pause(),
which returns only once a signal is delivered, after which main returns
EXIT_SUCCESS. -/
def procRun (v : Nat) (forkOk : Bool) (w : List WaitAttempt) (sigDelivered : Bool) :
    List ProcEvent × ProcExit :=
  if 1 < v then
    if forkOk = false then
      ([ProcEvent.perrorE "main: fork"], ProcExit.exited EXIT_FAILURE)
    else
      match waitLoop w with
      | WaitOutcome.exitedSuccess =>
        ([ProcEvent.forkChild, ProcEvent.logE "waiting"], ProcExit.exited EXIT_SUCCESS)
      | WaitOutcome.failed d =>
        ([ProcEvent.forkChild, ProcEvent.logE "waiting", ProcEvent.perrorE d],
          ProcExit.exited EXIT_FAILURE)
      | WaitOutcome.stillBlocked =>
        ([ProcEvent.forkChild, ProcEvent.logE "waiting"], ProcExit.blocked)
  else
    ([ProcEvent.logE "last child awaiting signal", ProcEvent.pauseCall],
      if sigDelivered then ProcExit.exited EXIT_SUCCESS else ProcExit.blocked)

theorem waitLoop_replicate_eintr (k : Nat) (rest : List WaitAttempt) :
    waitLoop (List.replicate k WaitAttempt.eintr ++ rest) = waitLoop rest := by
  induction k with
  | zero => rfl
  | succ m ih => simpa [List.replicate_succ, waitLoop] using ih

/-- C3: a non-leaf process that has successfully forked retries the blocking
wait across any number of interruptions by signal delivery; a wait failure
other than interruption is reported via perror("main: wait_pid") and ends the
process with a failure status; and once the child's termination is observed
the process exits with a success status. -/
theorem C3_wait_supervisor (v : Nat) (w : List WaitAttempt) (sig : Bool)
    (hv : 1 < v) :
    (waitLoop (WaitAttempt.eintr :: w) = waitLoop w) ∧
    (∀ k rest, waitLoop (List.replicate k WaitAttempt.eintr ++ WaitAttempt.success :: rest) =
      WaitOutcome.exitedSuccess) ∧
    (∀ k rest, waitLoop (List.replicate k WaitAttempt.eintr ++ WaitAttempt.failOther :: rest) =
      WaitOutcome.failed "main: wait_pid") ∧
    (waitLoop w = WaitOutcome.exitedSuccess →
      procRun v true w sig =
        ([ProcEvent.forkChild, ProcEvent.logE "waiting"], ProcExit.exited EXIT_SUCCESS)) ∧
    (∀ d, waitLoop w = WaitOutcome.failed d →
      (procRun v true w sig).2 = ProcExit.exited EXIT_FAILURE ∧
        ProcEvent.perrorE d ∈ (procRun v true w sig).1) := by
  refine ⟨rfl, ?_, ?_, ?_, ?_⟩
  · intro k rest
    rw [waitLoop_replicate_eintr]
    rfl
  · intro k rest
    rw [waitLoop_replicate_eintr]
    rfl
  · intro hw
    simp [procRun, hv, hw]
  · intro d hw
    simp [procRun, hv, hw]

/-- Witness for C3 at v = 2 with one interruption before success. -/
theorem C3_wait_supervisor_witness :
    (waitLoop (WaitAttempt.eintr :: [WaitAttempt.eintr, WaitAttempt.success]) =
      waitLoop [WaitAttempt.eintr, WaitAttempt.success]) ∧
    (∀ k rest, waitLoop (List.replicate k WaitAttempt.eintr ++ WaitAttempt.success :: rest) =
      WaitOutcome.exitedSuccess) ∧
    (∀ k rest, waitLoop (List.replicate k WaitAttempt.eintr ++ WaitAttempt.failOther :: rest) =
      WaitOutcome.failed "main: wait_pid") ∧
    (waitLoop [WaitAttempt.eintr, WaitAttempt.success] = WaitOutcome.exitedSuccess →
      procRun 2 true [WaitAttempt.eintr, WaitAttempt.success] false =
        ([ProcEvent.forkChild, ProcEvent.logE "waiting"], ProcExit.exited EXIT_SUCCESS)) ∧
    (∀ d, waitLoop [WaitAttempt.eintr, WaitAttempt.success] = WaitOutcome.failed d →
      (procRun 2 true [WaitAttempt.eintr, WaitAttempt.success] false).2 =
          ProcExit.exited EXIT_FAILURE ∧
        ProcEvent.perrorE d ∈ (procRun 2 true [WaitAttempt.eintr, WaitAttempt.success] false).1) :=
  C3_wait_supervisor 2 [WaitAttempt.eintr, WaitAttempt.success] false (by decide)

/-- C6: in every chain of length at least 1 the last process has chain
position 1 and the terminus role, and the process entering the loop with
fork_id 1 logs "last child awaiting signal", then calls pause(), remaining
blocked while no signal is delivered and resuming (to a successful exit of
main) exactly when one is. -/
theorem C6_leaf_awaits_signal (n : Nat) (f : Bool) (w : List WaitAttempt)
    (sig : Bool) (h1 : 1 ≤ n) :
    (chainProcs n).getLast? = some (1, Role.terminus) ∧
    procRun 1 f w sig =
      ([ProcEvent.logE "last child awaiting signal", ProcEvent.pauseCall],
        if sig then ProcExit.exited EXIT_SUCCESS else ProcExit.blocked) ∧
    ((procRun 1 f w sig).2 = ProcExit.blocked ↔ sig = false) := by
  refine ⟨chainProcs_getLast h1, rfl, ?_⟩
  cases sig <;> simp [procRun]

/-- Witness for C6 at n = 3. -/
theorem C6_leaf_awaits_signal_witness :
    (chainProcs 3).getLast? = some (1, Role.terminus) ∧
    procRun 1 true [] false =
      ([ProcEvent.logE "last child awaiting signal", ProcEvent.pauseCall],
        if false then ProcExit.exited EXIT_SUCCESS else ProcExit.blocked) ∧
    ((procRun 1 true [] false).2 = ProcExit.blocked ↔ false = false) :=
  C6_leaf_awaits_signal 3 true [] false (by decide)

/-- Process-wide state of main.c lines 39-45: the fork_id counter and the
sig_atomic_t fatal_signum cell (0 meaning no fatal signal recorded). -/
structure ProcState where
  fork_id : Nat
  fatal_signum : Nat
deriving DecidableEq, Repr

/-- Observable actions of the exit hook. -/
inductive HookEvent
  | log (m : String)
  | perrorEv (m : String)
  | sigDefault (s : Nat)
  | raiseSig (s : Nat)
deriving DecidableEq, Repr

/-- How the exit hook ends: returning to the exit machinery (the already-set
status stands), a hook-free _exit(2) with the given status, or termination of
the process by the re-delivered signal. -/
inductive HookEffect
  | ret
  | exitNoHooks (code : Nat)
  | killedBy (s : Nat)
deriving DecidableEq, Repr

/-- Environment of the exit hook: whether signal(signum, SIG_DFL) succeeds,
whether the re-delivered signal terminates the process before raise returns,
and whether raise itself returns an error. -/
structure SigEnv where
  resetOk : Bool
  raiseKills : Bool
  raiseErr : Bool
deriving DecidableEq, Repr

/-- Exit hook on_exit (main.c lines 209-226): read fatal_signum, log "exiting";
with no recorded signal just return; otherwise reset the signal's disposition
to default (a failure there is reported and forces _exit(EXIT_FAILURE)), raise
the very same signal at the process itself, and - should the process still be
executing afterwards - report a raise error if any, log that the process did
not die, and _exit(EXIT_FAILURE) without running exit hooks again. The
function never writes fork_id or fatal_signum, so the state passes through
unchanged. -/
def on_exit (st : ProcState) (env : SigEnv) : List HookEvent × HookEffect × ProcState :=
  let signum := st.fatal_signum
  let ev0 := [HookEvent.log "exiting"]
  if signum = 0 then (ev0, HookEffect.ret, st)
  else if env.resetOk = false then
    (ev0 ++ [HookEvent.perrorEv "on_exit: signal"], HookEffect.exitNoHooks EXIT_FAILURE, st)
  else
    let ev1 := ev0 ++ [HookEvent.sigDefault signum, HookEvent.raiseSig signum]
    if env.raiseKills then (ev1, HookEffect.killedBy signum, st)
    else
      let ev2 := ev1 ++ (if env.raiseErr then [HookEvent.perrorEv "on_exit: kill"] else [])
      (ev2 ++ [HookEvent.log "did not die after reraise! calling _exit(3)"],
        HookEffect.exitNoHooks EXIT_FAILURE, st)

/-- Signal handler on_signal (main.c lines 228-234): record the delivered
signal number in fatal_signum and log "caught signal". -/
def on_signal (st : ProcState) (signum : Nat) : ProcState × List HookEvent :=
  (ProcState.mk st.fork_id signum, [HookEvent.log "caught signal"])

/-- C2: whenever the exit hook runs with a recorded fatal signal s different
from 0, it first logs "exiting" and never returns to the exit machinery; once
the disposition reset succeeds it re-delivers exactly signal s to the process
itself right after resetting s to default handling; any raiseSig event it emits
carries exactly s; and if the process is still executing after the re-delivery
it logs that fact and performs an unconditional hook-free _exit with a failure
status (likewise on a reset failure), so the hook neither re-enters the exit
hooks nor loops. -/
theorem C2_exit_hook_reraise (st : ProcState) (env : SigEnv)
    (hs : st.fatal_signum ≠ 0) :
    ((on_exit st env).1.head? = some (HookEvent.log "exiting")) ∧
    ((on_exit st env).2.1 ≠ HookEffect.ret) ∧
    (∀ t, HookEvent.raiseSig t ∈ (on_exit st env).1 → t = st.fatal_signum) ∧
    (env.resetOk = false →
      on_exit st env =
        ([HookEvent.log "exiting", HookEvent.perrorEv "on_exit: signal"],
          HookEffect.exitNoHooks EXIT_FAILURE, st)) ∧
    (env.resetOk = true → env.raiseKills = true →
      on_exit st env =
        ([HookEvent.log "exiting", HookEvent.sigDefault st.fatal_signum,
          HookEvent.raiseSig st.fatal_signum],
          HookEffect.killedBy st.fatal_signum, st)) ∧
    (env.resetOk = true → env.raiseKills = false →
      (on_exit st env).2.1 = HookEffect.exitNoHooks EXIT_FAILURE ∧
        HookEvent.log "did not die after reraise! calling _exit(3)" ∈ (on_exit st env).1 ∧
        List.IsInfix [HookEvent.sigDefault st.fatal_signum, HookEvent.raiseSig st.fatal_signum]
          (on_exit st env).1) := by
  obtain ⟨fid, s⟩ := st
  obtain ⟨ro, rk, re⟩ := env
  simp only [ProcState.fatal_signum] at hs
  refine ⟨?_, ?_, ?_, ?_, ?_, ?_⟩
  · cases ro <;> cases rk <;> cases re <;> simp [on_exit, hs]
  · cases ro <;> cases rk <;> cases re <;> simp [on_exit, hs]
  · intro t ht
    cases ro <;> cases rk <;> cases re <;> simp [on_exit, hs] at ht <;> tauto
  · rintro rfl
    cases rk <;> cases re <;> simp [on_exit, hs]
  · rintro rfl rfl
    cases re <;> simp [on_exit, hs]
  · rintro rfl rfl
    cases re
    · refine ⟨by simp [on_exit, hs], by simp [on_exit, hs], ?_⟩
      exact ⟨[HookEvent.log "exiting"],
        [HookEvent.log "did not die after reraise! calling _exit(3)"],
        by simp [on_exit, hs]⟩
    · refine ⟨by simp [on_exit, hs], by simp [on_exit, hs], ?_⟩
      exact ⟨[HookEvent.log "exiting"],
        [HookEvent.perrorEv "on_exit: kill",
          HookEvent.log "did not die after reraise! calling _exit(3)"],
        by simp [on_exit, hs]⟩

/-- Witness for C2 with recorded signal 2 (SIGINT), successful reset, and a
re-delivery that does not terminate the process. -/
theorem C2_exit_hook_reraise_witness :
    ((on_exit (ProcState.mk 3 2) (SigEnv.mk true false false)).1.head? =
      some (HookEvent.log "exiting")) ∧
    ((on_exit (ProcState.mk 3 2) (SigEnv.mk true false false)).2.1 ≠ HookEffect.ret) ∧
    (∀ t, HookEvent.raiseSig t ∈ (on_exit (ProcState.mk 3 2) (SigEnv.mk true false false)).1 →
      t = (ProcState.mk 3 2).fatal_signum) ∧
    ((SigEnv.mk true false false).resetOk = false →
      on_exit (ProcState.mk 3 2) (SigEnv.mk true false false) =
        ([HookEvent.log "exiting", HookEvent.perrorEv "on_exit: signal"],
          HookEffect.exitNoHooks EXIT_FAILURE, ProcState.mk 3 2)) ∧
    ((SigEnv.mk true false false).resetOk = true →
      (SigEnv.mk true false false).raiseKills = true →
      on_exit (ProcState.mk 3 2) (SigEnv.mk true false false) =
        ([HookEvent.log "exiting", HookEvent.sigDefault (ProcState.mk 3 2).fatal_signum,
          HookEvent.raiseSig (ProcState.mk 3 2).fatal_signum],
          HookEffect.killedBy (ProcState.mk 3 2).fatal_signum, ProcState.mk 3 2)) ∧
    ((SigEnv.mk true false false).resetOk = true →
      (SigEnv.mk true false false).raiseKills = false →
      (on_exit (ProcState.mk 3 2) (SigEnv.mk true false false)).2.1 =
          HookEffect.exitNoHooks EXIT_FAILURE ∧
        HookEvent.log "did not die after reraise! calling _exit(3)" ∈
          (on_exit (ProcState.mk 3 2) (SigEnv.mk true false false)).1 ∧
        List.IsInfix
          [HookEvent.sigDefault (ProcState.mk 3 2).fatal_signum,
            HookEvent.raiseSig (ProcState.mk 3 2).fatal_signum]
          (on_exit (ProcState.mk 3 2) (SigEnv.mk true false false)).1) :=
  C2_exit_hook_reraise (ProcState.mk 3 2) (SigEnv.mk true false false) (by decide)

/-- C7: a run of the exit hook with no recorded fatal signal logs "exiting"
and only that - no disposition reset, no signal delivery - returns to the
exit machinery so that the already-set exit status stands, and leaves
fatal_signum and fork_id untouched. -/
theorem C7_exit_hook_frame (st : ProcState) (env : SigEnv)
    (hs : st.fatal_signum = 0) :
    on_exit st env = ([HookEvent.log "exiting"], HookEffect.ret, st) := by
  simp [on_exit, hs]

/-- Witness for C7 at fork_id 3 and no recorded signal. -/
theorem C7_exit_hook_frame_witness :
    on_exit (ProcState.mk 3 0) (SigEnv.mk true true false) =
      ([HookEvent.log "exiting"], HookEffect.ret, ProcState.mk 3 0) :=
  C7_exit_hook_frame (ProcState.mk 3 0) (SigEnv.mk true true false) (by decide)

/-- Failure of exit-hook registration: per the C standard and POSIX, atexit(3)
returns zero on success and any nonzero value on failure. -/
def atexitFailed (r : Int) : Prop := r ≠ 0

/-- How main's setup prologue ends (main.c lines 64-74): main treats the
atexit result as a failure exactly when it equals -1 (line 64); a signal(2)
registration failure (SIG_ERR) is reported and fatal; otherwise the chain
activity begins. -/
inductive SetupOutcome
  | abortedAtexit
  | abortedSignalReg
  | proceededToChain
deriving DecidableEq, Repr

/-- Setup prologue of main (main.c lines 62-80): check atexit's result against
-1, then register the SIGINT handler, then start the chain. -/
def mainSetup (atexitRes : Int) (signalRegOk : Bool) : SetupOutcome :=
  if atexitRes = -1 then SetupOutcome.abortedAtexit
  else if signalRegOk = false then SetupOutcome.abortedSignalReg
  else SetupOutcome.proceededToChain

/-- C8 (code evaluation at the failing input): the atexit result 1 is a
registration failure under POSIX, yet main's guard, which compares against -1
only, lets the program proceed to chain activity instead of terminating with a
failure status; the guard does catch the result -1. -/
theorem C8_atexit_guard_misses_failures :
    atexitFailed 1 ∧
    mainSetup 1 true = SetupOutcome.proceededToChain ∧
    mainSetup (-1) true = SetupOutcome.abortedAtexit := by
  refine ⟨by simp [atexitFailed], by decide, by decide⟩

/-- The NUL terminator byte. -/
def nulChar : Char := Char.ofNat 0

/-- Decimal rendering of an unsigned value, as snprintf's %u and %llu
conversions produce. -/
def decChars (n : Nat) : List Char := Nat.toDigits 10 n

/-- Space padding to a minimum field width of 3, as the %3u conversion
produces. -/
def pad3 (s : List Char) : List Char := List.replicate (3 - s.length) ' ' ++ s

/-- The logger's preamble "fork #%3u (pid %llu):\t" (main.c line 154) rendered
for the given chain position and process id. -/
def preChars (fid pid : Nat) : List Char :=
  "fork #".data ++ pad3 (decChars fid) ++ " (pid ".data ++ decChars pid ++ "):\t".data

/-- What snprintf(dst, n, ...) stores when its full output would be s: nothing
for n = 0, otherwise the first n-1 output bytes followed by a NUL
terminator. -/
def snContent (n : Nat) (s : List Char) : List Char :=
  if n = 0 then [] else s.take (n - 1) ++ [nulChar]

/-- Store a byte run into the buffer at the given offset. -/
def splice (buf : List Char) (off : Nat) (s : List Char) : List Char :=
  buf.take off ++ s ++ buf.drop (off + s.length)

/-- Per-call environment of the logger: whether the caller passed a null fmt,
the sysconf(_SC_PAGE_SIZE) result (negative on failure), and whether malloc,
the two formatting calls, and the final fputs succeed. -/
structure LogEnv where
  fmtNull : Bool
  pageSize : Int
  mallocOk : Bool
  preambleFail : Bool
  msgFail : Bool
  fputsOk : Bool
deriving DecidableEq, Repr

/-- Result of one logger call: a process termination (no path of logmsg
produces one), an abandoned call that returns to the caller after the named
diagnostic, or a line written to stderr. -/
inductive LogResult
  | fatal (code : Nat)
  | abandoned (diag : String)
  | emitted (line : List Char)
deriving DecidableEq, Repr

/-- A logger call's result together with every buffer index it stored to. -/
structure LogOut where
  result : LogResult
  stores : List Nat
deriving DecidableEq, Repr


/-- The log buffer after logmsg's three write stages (main.c lines 150-200),
for a call whose preamble snprintf did not overflow the buffer: snprintf
stores the preamble at offset 0 with the whole buffer available, vsnprintf
stores the caller's message just past the preamble with the space that
remains, and after clamping the remaining space to at least 2 the newline and
then the NUL terminator are stored. -/
def logBuf3 (buf_siz : Nat) (pre msg init : List Char) : List Char :=
  let written := pre.length
  let buf1 := splice init 0 (snContent buf_siz pre)
  let ba1 := buf_siz - written
  let wr2 := msg.length
  let buf2 := splice buf1 (buf_siz - ba1) (snContent ba1 msg)
  let ba2 := if wr2 ≤ ba1 then ba1 - wr2 else 0
  let ba3 := if ba2 < 2 then 2 else ba2
  (buf2.set (buf_siz - ba3) '\n').set (buf_siz - ba3 + 1) nulChar

/-- The indices of the newline and terminator stores (main.c lines 196-199). -/
def tailStores (buf_siz : Nat) (pre msg : List Char) : List Nat :=
  let ba1 := buf_siz - pre.length
  let ba2 := if msg.length ≤ ba1 then ba1 - msg.length else 0
  let ba3 := if ba2 < 2 then 2 else ba2
  [buf_siz - ba3, buf_siz - ba3 + 1]

/-- Diagnostic Logger logmsg (main.c lines 118-207), one call: bail out on a
null fmt; query the page size (a negative result is reported and abandons the
call); take the page-sized buffer (malloc failure likewise); snprintf the
preamble into the buffer (a negative return is reported; a return above the
available size is reported as "log: buffer overflow"); vsnprintf the caller's
message into the remaining space (a negative return is reported); store the
newline and NUL terminator; fputs the buffer to stderr (EOF is reported).
Here msg stands for the fully formatted caller message, init for the malloc'd
buffer's initial contents, and the emitted line is the buffer's content up to
the terminator. -/
def logmsg (env : LogEnv) (fid pid : Nat) (msg : List Char) (init : List Char) : LogOut :=
  if env.fmtNull then LogOut.mk (LogResult.abandoned "fmt == NULL") []
  else if env.pageSize < 0 then LogOut.mk (LogResult.abandoned "log: sysconf") []
  else
    let buf_siz := env.pageSize.toNat
    if env.mallocOk = false then LogOut.mk (LogResult.abandoned "log: malloc") []
    else
      let pre := preChars fid pid
      let st1 := List.range' 0 (snContent buf_siz pre).length
      if env.preambleFail then LogOut.mk (LogResult.abandoned "log: snprintf") st1
      else if buf_siz < pre.length then
        LogOut.mk (LogResult.abandoned "log: buffer overflow") st1
      else
        let ba1 := buf_siz - pre.length
        let st2 := List.range' (buf_siz - ba1) (snContent ba1 msg).length
        if env.msgFail then LogOut.mk (LogResult.abandoned "log: vsnprintf") (st1 ++ st2)
        else
          let line := (logBuf3 buf_siz pre msg init).takeWhile (fun c => c ≠ nulChar)
          if env.fputsOk = false then
            LogOut.mk (LogResult.abandoned "log: fputs") (st1 ++ st2 ++ tailStores buf_siz pre msg)
          else LogOut.mk (LogResult.emitted line) (st1 ++ st2 ++ tailStores buf_siz pre msg)

theorem snContent_length_le (n : Nat) (s : List Char) : (snContent n s).length ≤ n := by
  unfold snContent
  split
  · simp
  · simp [List.length_take]
    omega

theorem preChars_length_ge (fid pid : Nat) : 2 ≤ (preChars fid pid).length := by
  simp [preChars]

theorem logmsg_result_shape (env : LogEnv) (fid pid : Nat) (msg init : List Char) :
    (∃ d, (logmsg env fid pid msg init).result = LogResult.abandoned d) ∨
    (∃ l, (logmsg env fid pid msg init).result = LogResult.emitted l) := by
  unfold logmsg
  dsimp only
  repeat' split
  all_goals first
    | exact Or.inl ⟨_, rfl⟩
    | exact Or.inr ⟨_, rfl⟩

theorem logmsg_emitted_env {env : LogEnv} {fid pid : Nat} {msg init : List Char}
    {l : List Char}
    (h : (logmsg env fid pid msg init).result = LogResult.emitted l) :
    env.fmtNull = false ∧ ¬ env.pageSize < 0 ∧ env.mallocOk = true ∧
    env.preambleFail = false ∧ env.msgFail = false ∧ env.fputsOk = true := by
  unfold logmsg at h
  repeat' split at h <;> simp_all

/-- C5: every internal failure of the Diagnostic Logger - null fmt, page-size
query failure, buffer acquisition failure, formatting failure of the preamble
or of the caller's message, or failure of the final write - causes only that
one log call to be abandoned with a diagnostic and to return to the caller;
no logger call ever produces a process termination. -/
theorem C5_logger_failures_abandon_call (env : LogEnv) (fid pid : Nat)
    (msg init : List Char)
    (hfail : env.fmtNull = true ∨ env.pageSize < 0 ∨ env.mallocOk = false ∨
      env.preambleFail = true ∨ env.msgFail = true ∨ env.fputsOk = false) :
    (∀ c, (logmsg env fid pid msg init).result ≠ LogResult.fatal c) ∧
    (∃ d, (logmsg env fid pid msg init).result = LogResult.abandoned d) := by
  rcases logmsg_result_shape env fid pid msg init with ⟨d, hd⟩ | ⟨l, hl⟩
  · exact ⟨fun c => by simp [hd], ⟨d, hd⟩⟩
  · exfalso
    obtain ⟨h1, h2, h3, h4, h5, h6⟩ := logmsg_emitted_env hl
    rcases hfail with h | h | h | h | h | h <;> simp_all

/-- Witness for C5: a call whose vsnprintf fails is abandoned. -/
theorem C5_logger_failures_abandon_call_witness :
    (∀ c, (logmsg (LogEnv.mk false 32 true false true true) 3 42 "started".data
      (List.replicate 32 'x')).result ≠ LogResult.fatal c) ∧
    (∃ d, (logmsg (LogEnv.mk false 32 true false true true) 3 42 "started".data
      (List.replicate 32 'x')).result = LogResult.abandoned d) :=
  C5_logger_failures_abandon_call (LogEnv.mk false 32 true false true true) 3 42
    "started".data (List.replicate 32 'x')
    (Or.inr (Or.inr (Or.inr (Or.inr (Or.inl rfl)))))

theorem tailStores_lt (B : Nat) (pre msg : List Char) (hB2 : 2 ≤ B) :
    ∀ i ∈ tailStores B pre msg, i < B := by
  intro i hi
  unfold tailStores at hi
  dsimp only at hi
  simp only [List.mem_cons, List.not_mem_nil, or_false] at hi
  generalize (if msg.length ≤ B - pre.length then B - pre.length - msg.length else 0) = ba2 at hi
  have h2 : 2 ≤ if ba2 < 2 then 2 else ba2 := by split <;> omega
  generalize hb : (if ba2 < 2 then 2 else ba2) = ba3 at hi h2
  omega

/-- C10: in every logger call whose page-size query and buffer acquisition
succeed, every buffer index the call stores to - the preamble bytes and
terminator from snprintf, the message bytes and terminator from vsnprintf, and
the trailing newline and NUL stores - is strictly below the buffer's size:
the early return on preamble truncation keeps the later stores past a fitting
preamble, and the clamp of the remaining space to at least 2 keeps the final
two stores in bounds. -/
theorem C10_logger_stores_in_bounds (env : LogEnv) (fid pid : Nat)
    (msg init : List Char) (hps : 0 ≤ env.pageSize) (hm : env.mallocOk = true) :
    ∀ i ∈ (logmsg env fid pid msg init).stores, i < env.pageSize.toNat := by
  intro i hi
  have hst1 := snContent_length_le env.pageSize.toNat (preChars fid pid)
  have hst2 := snContent_length_le (env.pageSize.toNat - (preChars fid pid).length) msg
  have hpre2 := preChars_length_ge fid pid
  unfold logmsg at hi
  dsimp only at hi
  repeat' split at hi
  all_goals dsimp only at hi
  all_goals
    first
      | exact absurd hi (List.not_mem_nil i)
      | (rw [List.mem_range'] at hi
         obtain ⟨j, hj, rfl⟩ := hi
         omega)
      | (rcases List.mem_append.mp hi with hi1 | hi2
         · rw [List.mem_range'] at hi1
           obtain ⟨j, hj, rfl⟩ := hi1
           omega
         · rw [List.mem_range'] at hi2
           obtain ⟨j, hj, rfl⟩ := hi2
           omega)
      | (rcases List.mem_append.mp hi with hi12 | hi3
         · rcases List.mem_append.mp hi12 with hi1 | hi2
           · rw [List.mem_range'] at hi1
             obtain ⟨j, hj, rfl⟩ := hi1
             omega
           · rw [List.mem_range'] at hi2
             obtain ⟨j, hj, rfl⟩ := hi2
             omega
         · exact tailStores_lt _ _ _ (by omega) i hi3)

/-- Witness for C10: a successful call with page size 32. -/
theorem C10_logger_stores_in_bounds_witness :
    (0 : Int) ≤ 32 ∧
    ∀ i ∈ (logmsg (LogEnv.mk false 32 true false false true) 3 42 "started".data
      (List.replicate 32 'x')).stores, i < (32 : Int).toNat :=
  ⟨by decide,
    C10_logger_stores_in_bounds (LogEnv.mk false 32 true false false true) 3 42
      "started".data (List.replicate 32 'x') (by decide) rfl⟩

theorem digitChar_good (k : Nat) (h : k < 10) :
    Nat.digitChar k ≠ nulChar ∧ Nat.digitChar k ≠ '\n' := by
  interval_cases k <;> decide

theorem toDigitsCore_good (fuel : Nat) :
    ∀ (n : Nat) (ds : List Char), (∀ c ∈ ds, c ≠ nulChar ∧ c ≠ '\n') →
      ∀ c ∈ Nat.toDigitsCore 10 fuel n ds, c ≠ nulChar ∧ c ≠ '\n' := by
  induction fuel with
  | zero => exact fun n ds hds c hc => hds c hc
  | succ f ih =>
    intro n ds hds c hc
    simp only [Nat.toDigitsCore] at hc
    have hgood : ∀ x ∈ Nat.digitChar (n % 10) :: ds, x ≠ nulChar ∧ x ≠ '\n' := by
      intro x hx
      rcases List.mem_cons.mp hx with rfl | hx
      · exact digitChar_good _ (Nat.mod_lt _ (by norm_num))
      · exact hds x hx
    split at hc
    · exact hgood c hc
    · exact ih (n / 10) _ hgood c hc

theorem decChars_good (n : Nat) : ∀ c ∈ decChars n, c ≠ nulChar ∧ c ≠ '\n' := by
  intro c hc
  unfold decChars Nat.toDigits at hc
  exact toDigitsCore_good (n + 1) n [] (by simp) c hc

theorem preChars_good (fid pid : Nat) :
    ∀ c ∈ preChars fid pid, c ≠ nulChar ∧ c ≠ '\n' := by
  have hfork : ∀ x ∈ "fork #".data, x ≠ nulChar ∧ x ≠ '\n' := by decide
  have hpidl : ∀ x ∈ " (pid ".data, x ≠ nulChar ∧ x ≠ '\n' := by decide
  have htail : ∀ x ∈ "):\t".data, x ≠ nulChar ∧ x ≠ '\n' := by decide
  intro c hc
  unfold preChars at hc
  simp only [List.mem_append] at hc
  rcases hc with (((hc | hc) | hc) | hc) | hc
  · exact hfork c hc
  · unfold pad3 at hc
    rcases List.mem_append.mp hc with hc | hc
    · rw [List.eq_of_mem_replicate hc]
      decide
    · exact decChars_good fid c hc
  · exact hpidl c hc
  · exact decChars_good pid c hc
  · exact htail c hc

theorem splice_nil_off (init s : List Char) :
    splice init 0 s = s ++ init.drop s.length := by
  simp [splice]

theorem splice_mid (a b s : List Char) :
    splice (a ++ b) a.length s = a ++ s ++ b.drop s.length := by
  unfold splice
  rw [List.take_left' rfl, ← List.drop_drop, List.drop_left]

theorem set_two_append (u : List Char) (x y : Char) (r : List Char) (a b : Char) :
    ((u ++ x :: y :: r).set u.length a).set (u.length + 1) b = u ++ a :: b :: r := by
  rw [List.set_append_right u.length a (Nat.le_refl _)]
  simp only [Nat.sub_self, List.set_cons_zero]
  rw [List.set_append_right (u.length + 1) b (by omega)]
  simp

theorem take_concat_last (v : List Char) (h : 1 ≤ v.length) :
    ∃ c, v = v.take (v.length - 1) ++ [c] := by
  have hd : (v.drop (v.length - 1)).length = 1 := by
    rw [List.length_drop]
    omega
  obtain ⟨c, hc⟩ := List.length_eq_one.mp hd
  refine ⟨c, ?_⟩
  conv_lhs => rw [← List.take_append_drop (v.length - 1) v]
  rw [hc]

theorem takeWhile_line (pre tk rest : List Char)
    (hpre : ∀ c ∈ pre, c ≠ nulChar) (htk : ∀ c ∈ tk, c ≠ nulChar) :
    (pre ++ tk ++ '\n' :: nulChar :: rest).takeWhile (fun c => c ≠ nulChar) =
      pre ++ tk ++ ['\n'] := by
  have hall : ∀ a ∈ pre ++ tk, (fun c => decide (c ≠ nulChar)) a = true := by
    intro a ha
    rcases List.mem_append.mp ha with h | h
    · simpa using hpre a h
    · simpa using htk a h
  rw [List.takeWhile_append_of_pos hall]
  rw [List.takeWhile_cons_of_pos (by decide)]
  rw [List.takeWhile_cons_of_neg (by decide)]

theorem logBuf3_shape (buf_siz : Nat) (pre msg init : List Char)
    (hfit : pre.length + 2 ≤ buf_siz) (hinit : init.length = buf_siz) :
    ∃ rest : List Char,
      logBuf3 buf_siz pre msg init =
        pre ++ msg.take (min msg.length (buf_siz - pre.length - 2)) ++
          '\n' :: nulChar :: rest := by
  have hsn1 : snContent buf_siz pre = pre ++ [nulChar] := by
    unfold snContent
    rw [if_neg (by omega), List.take_of_length_le (by omega)]
  have hsp1 : splice init 0 (pre ++ [nulChar]) =
      pre ++ ([nulChar] ++ init.drop (pre.length + 1)) := by
    rw [splice_nil_off]
    simp [List.append_assoc]
  have hoff : buf_siz - (buf_siz - pre.length) = pre.length := by omega
  have hsn2 : snContent (buf_siz - pre.length) msg =
      msg.take (buf_siz - pre.length - 1) ++ [nulChar] := by
    unfold snContent
    rw [if_neg (by omega)]
  have hdrop : ([nulChar] ++ init.drop (pre.length + 1)).drop
      ((msg.take (buf_siz - pre.length - 1) ++ [nulChar]).length) =
      init.drop (pre.length + 1 + (msg.take (buf_siz - pre.length - 1)).length) := by
    simp only [List.length_append, List.length_cons, List.length_nil, List.singleton_append]
    rw [List.drop_succ_cons, List.drop_drop]
  unfold logBuf3
  dsimp only
  rw [hsn1, hsp1, hoff, hsn2, splice_mid, hdrop]
  by_cases hA : msg.length + 2 ≤ buf_siz - pre.length
  · -- the message and the trailing newline and terminator all fit
    have ht : msg.take (buf_siz - pre.length - 1) = msg :=
      List.take_of_length_le (by omega)
    rw [ht]
    have hba3 : (if (if msg.length ≤ buf_siz - pre.length then
          buf_siz - pre.length - msg.length else 0) < 2 then 2
        else (if msg.length ≤ buf_siz - pre.length then
          buf_siz - pre.length - msg.length else 0)) =
        buf_siz - pre.length - msg.length := by
      have hinner : (if msg.length ≤ buf_siz - pre.length then
          buf_siz - pre.length - msg.length else 0) =
          buf_siz - pre.length - msg.length := if_pos (by omega)
      rw [hinner, if_neg (by omega)]
    rw [hba3]
    have hd2len : 1 ≤ (init.drop (pre.length + 1 + msg.length)).length := by
      rw [List.length_drop]
      omega
    cases hd2 : init.drop (pre.length + 1 + msg.length) with
    | nil => rw [hd2] at hd2len; simp at hd2len
    | cons d D2 =>
      have hshape : pre ++ (msg ++ [nulChar]) ++ d :: D2 =
          (pre ++ msg) ++ nulChar :: d :: D2 := by
        simp
      rw [hshape]
      have hp1 : buf_siz - (buf_siz - pre.length - msg.length) = (pre ++ msg).length := by
        simp only [List.length_append]
        omega
      rw [hp1, set_two_append]
      refine ⟨D2, ?_⟩
      have hk : min msg.length (buf_siz - pre.length - 2) = msg.length := by omega
      rw [hk, List.take_length]
  · -- the message is truncated, or exactly fills the space
    have hL2 : (msg.take (buf_siz - pre.length - 1)).length = buf_siz - pre.length - 1 := by
      rw [List.length_take]
      omega
    have hD2 : init.drop (pre.length + 1 + (msg.take (buf_siz - pre.length - 1)).length) = [] := by
      apply List.eq_nil_of_length_eq_zero
      rw [List.length_drop, hL2]
      omega
    rw [hD2]
    have hba3 : (if (if msg.length ≤ buf_siz - pre.length then
          buf_siz - pre.length - msg.length else 0) < 2 then 2
        else (if msg.length ≤ buf_siz - pre.length then
          buf_siz - pre.length - msg.length else 0)) = 2 := by
      have h1 : (if msg.length ≤ buf_siz - pre.length then
          buf_siz - pre.length - msg.length else 0) ≤ 1 := by
        split <;> omega
      exact if_pos (by omega)
    rw [hba3]
    obtain ⟨c, hc⟩ := take_concat_last (msg.take (buf_siz - pre.length - 1)) (by omega)
    have htt : (msg.take (buf_siz - pre.length - 1)).take
        ((msg.take (buf_siz - pre.length - 1)).length - 1) =
        msg.take (buf_siz - pre.length - 2) := by
      rw [hL2, List.take_take]
      have : min (buf_siz - pre.length - 1 - 1) (buf_siz - pre.length - 1) =
          buf_siz - pre.length - 2 := by omega
      rw [this]
    rw [htt] at hc
    rw [hc]
    have hshape : pre ++ (msg.take (buf_siz - pre.length - 2) ++ [c] ++ [nulChar]) ++ [] =
        (pre ++ msg.take (buf_siz - pre.length - 2)) ++ c :: nulChar :: [] := by
      simp
    rw [hshape]
    have hp1 : buf_siz - 2 = (pre ++ msg.take (buf_siz - pre.length - 2)).length := by
      simp only [List.length_append, List.length_take]
      omega
    rw [hp1, set_two_append]
    refine ⟨[], ?_⟩
    have hk : min msg.length (buf_siz - pre.length - 2) = buf_siz - pre.length - 2 := by
      omega
    rw [hk]

theorem logmsg_ok (env : LogEnv) (fid pid : Nat) (msg init : List Char)
    (h1 : env.fmtNull = false) (h2 : env.mallocOk = true)
    (h3 : env.preambleFail = false) (h4 : env.msgFail = false) (h5 : env.fputsOk = true)
    (hps : ¬ env.pageSize < 0)
    (hnof : ¬ env.pageSize.toNat < (preChars fid pid).length) :
    (logmsg env fid pid msg init).result =
      LogResult.emitted ((logBuf3 env.pageSize.toNat (preChars fid pid) msg init).takeWhile
        (fun c => c ≠ nulChar)) := by
  unfold logmsg logBuf3
  dsimp only
  rw [if_neg (by simp [h1]), if_neg hps, if_neg (by simp [h2]), if_neg (by simp [h3]),
    if_neg hnof, if_neg (by simp [h4]), if_neg (by simp [h5])]

/-- C4: for every successful Diagnostic Logger call (non-null fmt, and the
page-size query, buffer acquisition, both formatting steps and the final write
all succeed), with a page large enough to hold the preamble plus newline and
terminator and a caller message free of NUL and newline bytes, the emitted
line is exactly the preamble "fork #<position padded to 3> (pid <pid>):\t"
followed by the caller's message truncated to the space remaining on the page,
then a single newline: its byte length stays within one page, it ends with
exactly one newline, the preamble and final newline survive truncation, and
the message is emitted whole whenever it fits. -/
theorem C4_logger_line_format (env : LogEnv) (fid pid : Nat) (msg init : List Char)
    (h1 : env.fmtNull = false) (h2 : env.mallocOk = true)
    (h3 : env.preambleFail = false) (h4 : env.msgFail = false)
    (h5 : env.fputsOk = true)
    (hfit : (preChars fid pid).length + 2 ≤ env.pageSize.toNat)
    (hinit : init.length = env.pageSize.toNat)
    (hmsg : ∀ c ∈ msg, c ≠ nulChar ∧ c ≠ '\n') :
    ∃ k, k ≤ msg.length ∧
      k = min msg.length (env.pageSize.toNat - (preChars fid pid).length - 2) ∧
      (logmsg env fid pid msg init).result =
        LogResult.emitted (preChars fid pid ++ msg.take k ++ ['\n']) ∧
      (preChars fid pid ++ msg.take k ++ ['\n']).length ≤ env.pageSize.toNat ∧
      (preChars fid pid ++ msg.take k ++ ['\n']).count '\n' = 1 ∧
      (preChars fid pid ++ msg.take k ++ ['\n']).getLast? = some '\n' ∧
      ((preChars fid pid).length + msg.length + 2 ≤ env.pageSize.toNat → k = msg.length) := by
  have hps : ¬ env.pageSize < 0 := by omega
  have hnof : ¬ env.pageSize.toNat < (preChars fid pid).length := by omega
  have hlm := logmsg_ok env fid pid msg init h1 h2 h3 h4 h5 hps hnof
  obtain ⟨rest, hshape⟩ :=
    logBuf3_shape env.pageSize.toNat (preChars fid pid) msg init hfit hinit
  rw [hshape] at hlm
  rw [takeWhile_line _ _ _ (fun c hc => (preChars_good fid pid c hc).1)
      (fun c hc => (hmsg c (List.mem_of_mem_take hc)).1)] at hlm
  refine ⟨min msg.length (env.pageSize.toNat - (preChars fid pid).length - 2),
    by omega, rfl, hlm, ?_, ?_, List.getLast?_concat _, by omega⟩
  · simp only [List.length_append, List.length_take, List.length_cons, List.length_nil]
    omega
  · have hpre0 : (preChars fid pid).count '\n' = 0 :=
      List.count_eq_zero.mpr (fun hmem => (preChars_good fid pid '\n' hmem).2 rfl)
    have htk0 : (msg.take (min msg.length
        (env.pageSize.toNat - (preChars fid pid).length - 2))).count '\n' = 0 :=
      List.count_eq_zero.mpr
        (fun hmem => (hmsg '\n' (List.mem_of_mem_take hmem)).2 rfl)
    simp [List.count_append, hpre0, htk0]

/-- Witness for C4: page size 64, chain position 3, pid 42, message
"started". -/
theorem C4_logger_line_format_witness :
    ∃ k, k ≤ "started".data.length ∧
      k = min "started".data.length
        ((64 : Int).toNat - (preChars 3 42).length - 2) ∧
      (logmsg (LogEnv.mk false 64 true false false true) 3 42 "started".data
          (List.replicate 64 'x')).result =
        LogResult.emitted (preChars 3 42 ++ "started".data.take k ++ ['\n']) ∧
      (preChars 3 42 ++ "started".data.take k ++ ['\n']).length ≤ (64 : Int).toNat ∧
      (preChars 3 42 ++ "started".data.take k ++ ['\n']).count '\n' = 1 ∧
      (preChars 3 42 ++ "started".data.take k ++ ['\n']).getLast? = some '\n' ∧
      ((preChars 3 42).length + "started".data.length + 2 ≤ (64 : Int).toNat →
        k = "started".data.length) :=
  C4_logger_line_format (LogEnv.mk false 64 true false false true) 3 42 "started".data
    (List.replicate 64 'x') rfl rfl rfl rfl rfl (by decide) (by decide) (by decide)
